import Mathlib

/-!
Verification development for the it-passport text-to-record pipeline.

The definitions below are a shallow embedding of `src/batch_process.py`
(the transcript parser `extract_questions_from_text`, the serializer
`save_to_json`, and the numeric sort in `main`) and of the row mapping and
insertion filter of `src/insert_questions.py`.  Python strings are modelled
as Lean `String` (lists of Unicode scalars); the regexes
`^問(\d+)\s(.*)`, `^[アイウエ]\s` and `re.split(r'\s{2,}', ·)` are
translated into explicit character-list functions.
-/

namespace ItPassport

/-- Whitespace test modelling Python's whitespace class, as used both by
`str.strip()` and by the regex class `\s`: ASCII whitespace plus the
Unicode spaces that occur in the transcripts (NBSP and the ideographic
space U+3000). -/
def pyIsSpace (c : Char) : Bool :=
  c = ' ' || c = '\t' || c = '\n' || c = '\r' || c = '\x0b' || c = '\x0c' ||
  c = ' ' || c = '　'

/-- Python `str.strip()` on a character list: drop whitespace from both
ends. -/
def pyStripL (cs : List Char) : List Char :=
  ((cs.dropWhile pyIsSpace).reverse.dropWhile pyIsSpace).reverse

/-- Python `str.strip()`. -/
def pyStrip (s : String) : String :=
  String.mk (pyStripL s.data)

/-- Worker for `re.split(r'\s{2,}', s)`: `acc` holds the current fragment
reversed.  A run of two or more whitespace characters ends the current
fragment and is consumed entirely (the regex quantifier is greedy); a
single whitespace character stays inside the fragment. -/
def splitWs2Aux : List Char → List Char → List (List Char)
  | [], acc => [acc.reverse]
  | [c], acc => [(c :: acc).reverse]
  | c1 :: c2 :: rest, acc =>
    if pyIsSpace c1 && pyIsSpace c2 then
      acc.reverse :: splitWs2Aux ((c2 :: rest).dropWhile pyIsSpace) []
    else
      splitWs2Aux (c2 :: rest) (c1 :: acc)
termination_by cs _ => cs.length
decreasing_by
  · have h := (List.dropWhile_sublist (l := c2 :: rest) pyIsSpace).length_le
    simp only [List.length_cons] at h ⊢
    omega
  · simp

/-- Python `re.split(r'\s{2,}', s)`. -/
def splitWs2 (s : String) : List String :=
  (splitWs2Aux s.data []).map String.mk

/-- Python `s.split('\n')` on a character list: split at every newline,
keeping empty pieces, with `[[]]` for the empty string. -/
def splitLinesL : List Char → List (List Char)
  | [] => [[]]
  | c :: rest =>
    if c = '\n' then [] :: splitLinesL rest
    else
      match splitLinesL rest with
      | [] => [[c]]
      | l :: ls => (c :: l) :: ls

/-- Python `s.split('\n')`. -/
def pySplitLines (s : String) : List String :=
  (splitLinesL s.data).map String.mk

/-- Matching of the question-start regex `^問(\d+)\s(.*)` (as used by
`re.match`): on success returns the captured digit group and the trailing
text.  `\d` is modelled by `Char.isDigit`, matching the ASCII numbering of
the transcripts. -/
def matchQuestionStartL : List Char → Option (List Char × List Char)
  | [] => none
  | c :: rest =>
    if c = '問' then
      match rest.takeWhile Char.isDigit, rest.dropWhile Char.isDigit with
      | [], _ => none
      | _ :: _, [] => none
      | d :: ds, w :: tail =>
        if pyIsSpace w then some (d :: ds, tail) else none
    else none

/-- String version of `matchQuestionStartL`: the captured digit group and
the trailing text of `^問(\d+)\s(.*)`. -/
def matchQuestionStart (line : String) : Option (String × String) :=
  (matchQuestionStartL line.data).map fun p => (String.mk p.1, String.mk p.2)

/-- Matching of the choice-start regex `^[アイウエ]\s` (as used by
`re.match`). -/
def matchAnswerOptionL : List Char → Bool
  | c1 :: c2 :: _ => (c1 = 'ア' || c1 = 'イ' || c1 = 'ウ' || c1 = 'エ') && pyIsSpace c2
  | _ => false

/-- String version of `matchAnswerOptionL`. -/
def matchAnswerOption (line : String) : Bool :=
  matchAnswerOptionL line.data

/-- A question that has been opened but not yet sealed: the
`current_question` dict of the Python loop before `options` is attached. -/
structure OpenQuestion where
  question_number : String
  question_text : String
  deriving DecidableEq, Repr

/-- A sealed question record, as appended to `parsed_data`. -/
structure Question where
  question_number : String
  question_text : String
  options : List String
  deriving DecidableEq, Repr

/-- The loop state of `extract_questions_from_text`: the output list
`parsed_data`, the open question (`{}` is modelled as `none`), and the
choice accumulator `options`. -/
structure ParseState where
  parsed_data : List Question
  current_question : Option OpenQuestion
  options : List String
  deriving DecidableEq, Repr

/-- Sealing (lines 31-35 and 55-57 of `batch_process.py`): if a question is
open, attach the accumulated `options`, append it to `parsed_data` and
reset the accumulator; otherwise do nothing. -/
def sealCurrent (s : ParseState) : ParseState :=
  match s.current_question with
  | some q =>
    { parsed_data := s.parsed_data ++ [⟨q.question_number, q.question_text, s.options⟩]
      current_question := s.current_question
      options := [] }
  | none => s

/-- One iteration of the loop body of `extract_questions_from_text`
(lines 25-52 of `batch_process.py`).  The line is stripped, then checked
against the question-start pattern, then the choice-start pattern, then
the body-continuation condition. -/
def stepLine (s : ParseState) (rawLine : String) : ParseState :=
  match matchQuestionStart (pyStrip rawLine) with
  | some (num, rest) =>
    { sealCurrent s with current_question := some ⟨num, pyStrip rest⟩ }
  | none =>
    if matchAnswerOption (pyStrip rawLine) then
      { s with options := s.options ++ splitWs2 (pyStrip rawLine) }
    else
      match s.current_question with
      | some q =>
        if pyStrip rawLine ≠ "" then
          { s with
            current_question := some ⟨q.question_number, q.question_text ++ "\n" ++ pyStrip rawLine⟩ }
        else s
      | none => s

/-- Initial loop state: `parsed_data = []`, `current_question = {}`,
`options = []`. -/
def initState : ParseState := ⟨[], none, []⟩

/-- Finalization (lines 54-57): seal the open question, if any, and return
the output list. -/
def finalize (s : ParseState) : List Question :=
  (sealCurrent s).parsed_data

/-- The parser loop run over an explicit list of lines. -/
def extractLines (lines : List String) : List Question :=
  finalize (lines.foldl stepLine initState)

/-- `extract_questions_from_text` (lines 10-59 of `batch_process.py`):
strip the whole text, split it on newlines, and fold the loop body over
the lines. -/
def extract_questions_from_text (text_content : String) : List Question :=
  extractLines (pySplitLines (pyStrip text_content))

/-- A line is recognized as a question-start marker when, after stripping,
it matches the question-start pattern. -/
def isQuestionStartLine (l : String) : Bool :=
  (matchQuestionStart (pyStrip l)).isSome

/-- Number of lines recognized as question-start markers. -/
def countMarkers (lines : List String) : Nat :=
  lines.countP isQuestionStartLine

/-- Numeric value of a digit list, most significant digit first. -/
def digitsToNat (ds : List Char) : Nat :=
  ds.foldl (fun n c => 10 * n + (c.toNat - '0'.toNat)) 0

/-- Python `int(s)` on a string, as a total function: `none` models the
`ValueError` raised on an unparseable string.  Surrounding whitespace and
a single leading sign are accepted, then a non-empty ASCII digit run. -/
def pyIntOfString (s : String) : Option Int :=
  match pyStripL s.data with
  | [] => none
  | c :: rest =>
    if c = '-' then
      if rest ≠ [] ∧ rest.all Char.isDigit then some (-(digitsToNat rest : Int)) else none
    else if c = '+' then
      if rest ≠ [] ∧ rest.all Char.isDigit then some (digitsToNat rest : Int) else none
    else
      if (c :: rest).all Char.isDigit then some (digitsToNat (c :: rest) : Int) else none

/-- A parser record after the batch driver has attached the
`question_type` field (lines 96-99 of `batch_process.py`). -/
structure TypedQuestion where
  question_number : String
  question_type : String
  question_text : String
  options : List String
  deriving DecidableEq, Repr

/-- One element of the `questions` array of the output JSON document. -/
structure FormattedQuestion where
  question_number : String
  question_type : String
  question_text : String
  options : List String
  question_answer : String
  deriving DecidableEq, Repr

/-- The data transformation of `save_to_json` (lines 132-164 of
`batch_process.py`): each record is formatted field-for-field, and
`question_answer` is looked up in the answer dictionary with default `""`
(`answers_dict.get(question_number, '')`).  The dictionary is modelled as
a partial map `String → Option String`. -/
def save_to_json (questions : List TypedQuestion) (answers_dict : String → Option String) :
    List FormattedQuestion :=
  questions.map fun q =>
    { question_number := q.question_number
      question_type := q.question_type
      question_text := q.question_text
      options := q.options
      question_answer := (answers_dict q.question_number).getD "" }

/-- A row of the `questions` table; `id = none` models the `None` id
produced when `int(question_number)` raises. -/
structure DbRow where
  id : Option Int
  question : String
  type : String
  options : List String
  answer : String
  deriving DecidableEq, Repr

/-- `map_json_to_db_row` of `src/insert_questions.py` on a well-formed
record (every JSON key present, `options` a list): `question_number` is
converted with `int(·)`, yielding `none` on failure; the other fields are
copied. -/
def map_json_to_db_row (q : FormattedQuestion) : DbRow :=
  { id := pyIntOfString q.question_number
    question := q.question_text
    type := q.question_type
    options := q.options
    answer := q.question_answer }

/-- The rows actually inserted by `insert_questions` of
`src/insert_questions.py`: each record is mapped to a row and rows whose
`id` is `None` are skipped. -/
def insert_questions (questions_data : List FormattedQuestion) : List DbRow :=
  (questions_data.map map_json_to_db_row).filter fun r => r.id.isSome

/-- The sort key of `main` (line 204 of `batch_process.py`):
`int(x.get('question_number', '0'))`.  In this typed model the field is
always present; `getD 0` stands in for the fact that the conversion is
only ever applied to parseable numbers (claim C10). -/
def sortKey (q : TypedQuestion) : Int :=
  (pyIntOfString q.question_number).getD 0

/-- The sort `all_questions.sort(key=lambda x: int(x.get('question_number', '0')))`
of `main`: a stable sort ascending by the numeric key. -/
def sortQuestions (qs : List TypedQuestion) : List TypedQuestion :=
  qs.mergeSort fun a b => decide (sortKey a ≤ sortKey b)

/-! Basic lemmas about the step function. -/

/-- A line matching the choice-start pattern cannot match the
question-start pattern: the first character would have to be both a kana
label and `問`. -/
theorem answerOptionL_not_questionStartL (cs : List Char) (h : matchAnswerOptionL cs = true) :
    matchQuestionStartL cs = none := by
  cases cs with
  | nil => simp [matchAnswerOptionL] at h
  | cons c1 t =>
    cases t with
    | nil => simp [matchAnswerOptionL] at h
    | cons c2 t2 =>
      simp only [matchAnswerOptionL, Bool.and_eq_true, Bool.or_eq_true,
        decide_eq_true_eq] at h
      have hne : ¬ c1 = '問' := by
        rcases h.1 with ((h1 | h1) | h1) | h1 <;> subst h1 <;> decide
      simp [matchQuestionStartL, hne]

/-- String version of the pattern disjointness. -/
theorem answerOption_not_questionStart (l : String) (h : matchAnswerOption l = true) :
    matchQuestionStart l = none := by
  unfold matchQuestionStart
  rw [answerOptionL_not_questionStartL l.data h]
  rfl

/-- Step behaviour on a line recognized as a question-start marker. -/
theorem stepLine_marker (s : ParseState) (l num rest : String)
    (h : matchQuestionStart (pyStrip l) = some (num, rest)) :
    stepLine s l = { sealCurrent s with current_question := some ⟨num, pyStrip rest⟩ } := by
  simp [stepLine, h]

/-- Step behaviour on a line recognized as a choice-start marker. -/
theorem stepLine_option (s : ParseState) (l : String)
    (h : matchAnswerOption (pyStrip l) = true) :
    stepLine s l = { s with options := s.options ++ splitWs2 (pyStrip l) } := by
  have hq : matchQuestionStart (pyStrip l) = none :=
    answerOption_not_questionStart (pyStrip l) h
  simp [stepLine, hq, h]

/-- Step behaviour on an unmatched line while no question is open: the
state is unchanged. -/
theorem stepLine_no_open (s : ParseState) (l : String)
    (hcur : s.current_question = none)
    (hq : matchQuestionStart (pyStrip l) = none)
    (ha : matchAnswerOption (pyStrip l) = false) :
    stepLine s l = s := by
  simp [stepLine, hq, ha, hcur]

/-- Step behaviour on an unmatched non-empty line while a question is
open: body continuation. -/
theorem stepLine_body (s : ParseState) (l : String) (q0 : OpenQuestion)
    (hq : matchQuestionStart (pyStrip l) = none)
    (ha : matchAnswerOption (pyStrip l) = false)
    (hc : s.current_question = some q0)
    (he : pyStrip l ≠ "") :
    stepLine s l = { s with
      current_question := some ⟨q0.question_number, q0.question_text ++ "\n" ++ pyStrip l⟩ } := by
  simp [stepLine, hq, ha, hc, he]

/-- Step behaviour on a line that strips to the empty string while a
question is open: the state is unchanged. -/
theorem stepLine_body_empty (s : ParseState) (l : String) (q0 : OpenQuestion)
    (_hq : matchQuestionStart (pyStrip l) = none)
    (_ha : matchAnswerOption (pyStrip l) = false)
    (hc : s.current_question = some q0)
    (he : pyStrip l = "") :
    stepLine s l = s := by
  have h0 : matchQuestionStart "" = none := rfl
  have h1 : matchAnswerOption "" = false := rfl
  simp [stepLine, he, hc, h0, h1]

/-- Number of records already sealed, counting an open question as one
record to come. -/
def openCount : Option OpenQuestion → Nat
  | some _ => 1
  | none => 0

/-- Records accounted for by a state: sealed ones plus the open one. -/
def sealedCount (s : ParseState) : Nat :=
  s.parsed_data.length + openCount s.current_question

/-- Each step increases the account by one exactly on marker lines. -/
theorem sealedCount_step (s : ParseState) (l : String) :
    sealedCount (stepLine s l) =
      sealedCount s + (if isQuestionStartLine l then 1 else 0) := by
  unfold isQuestionStartLine
  cases hq : matchQuestionStart (pyStrip l) with
  | some p =>
    obtain ⟨num, rest⟩ := p
    rw [stepLine_marker s l num rest hq]
    cases hc : s.current_question <;>
      simp [sealedCount, sealCurrent, openCount, hc, hq]
  | none =>
    by_cases ha : matchAnswerOption (pyStrip l) = true
    · rw [stepLine_option s l ha]
      simp [sealedCount, hq]
    · simp only [Bool.not_eq_true] at ha
      cases hc : s.current_question with
      | none =>
        rw [stepLine_no_open s l hc hq ha]
        simp [hq]
      | some q =>
        by_cases he : pyStrip l = ""
        · rw [stepLine_body_empty s l q hq ha hc he]
          simp [hq]
        · rw [stepLine_body s l q hq ha hc he]
          simp [sealedCount, openCount, hc, hq]

/-- Folding the step over any list of lines adds the number of marker
lines to the account. -/
theorem sealedCount_foldl (lines : List String) (s : ParseState) :
    sealedCount (lines.foldl stepLine s) = sealedCount s + countMarkers lines := by
  induction lines generalizing s with
  | nil => simp [countMarkers]
  | cons l ls ih =>
    simp only [List.foldl_cons, countMarkers, List.countP_cons] at *
    rw [ih, sealedCount_step]
    by_cases h : isQuestionStartLine l
    · simp only [h, if_true]
      omega
    · simp [h]

/-- Finalization turns the account into the real record count. -/
theorem length_finalize (s : ParseState) : (finalize s).length = sealedCount s := by
  cases hc : s.current_question <;>
    simp [finalize, sealCurrent, sealedCount, openCount, hc]

/-- The record count of the parser equals the marker-line count. -/
theorem extract_length_eq (text_content : String) :
    (extract_questions_from_text text_content).length =
      countMarkers (pySplitLines (pyStrip text_content)) := by
  unfold extract_questions_from_text extractLines
  rw [length_finalize, sealedCount_foldl]
  simp [sealedCount, initState, openCount]

/-- C1: for every input text, the number of records returned by
`extract_questions_from_text` equals the number of lines recognized as
question-start markers (the final open question is sealed at end of
input); in particular an input with zero marker lines yields `[]`. -/
theorem c1_record_count_eq_marker_count (text_content : String) :
    (extract_questions_from_text text_content).length =
      countMarkers (pySplitLines (pyStrip text_content)) ∧
    (countMarkers (pySplitLines (pyStrip text_content)) = 0 →
      extract_questions_from_text text_content = []) :=
  ⟨extract_length_eq text_content, fun h0 =>
    List.length_eq_zero.mp ((extract_length_eq text_content).trans h0)⟩

theorem c1_record_count_witness :
    extract_questions_from_text "no markers in this text\nsecond line" = [] :=
  (c1_record_count_eq_marker_count "no markers in this text\nsecond line").2 (by decide)

/-- C2: a marker line recognized while a question is open seals the open
question (attaching the accumulated options, appending it to the output,
resetting the accumulator) before opening the new one; and finalization
seals an open question the same way, so the last question is kept. -/
theorem c2_marker_seals_open_question (p : List Question) (q : OpenQuestion)
    (opts : List String) (l num rest : String)
    (h : matchQuestionStart (pyStrip l) = some (num, rest)) :
    stepLine ⟨p, some q, opts⟩ l =
      ⟨p ++ [⟨q.question_number, q.question_text, opts⟩], some ⟨num, pyStrip rest⟩, []⟩ ∧
    finalize ⟨p, some q, opts⟩ = p ++ [⟨q.question_number, q.question_text, opts⟩] := by
  constructor
  · rw [stepLine_marker _ _ _ _ h]
    simp [sealCurrent]
  · simp [finalize, sealCurrent]

theorem c2_marker_seals_witness :
    stepLine ⟨[], some ⟨"1", "t"⟩, ["ア a"]⟩ "問2 next" =
      ⟨[⟨"1", "t", ["ア a"]⟩], some ⟨"2", "next"⟩, []⟩ ∧
    finalize ⟨[], some ⟨"1", "t"⟩, ["ア a"]⟩ = [⟨"1", "t", ["ア a"]⟩] :=
  c2_marker_seals_open_question [] ⟨"1", "t"⟩ ["ア a"] "問2 next" "2" "next" (by decide)

/-- C4: a non-empty line matching neither pattern while no question is
open (which can only happen before the first marker) is discarded
silently: the state is unchanged, so it contributes to no record and
produces no record. -/
theorem c4_premarker_line_dropped (s : ParseState) (l : String) (rest : List String)
    (hcur : s.current_question = none)
    (hq : matchQuestionStart (pyStrip l) = none)
    (ha : matchAnswerOption (pyStrip l) = false) :
    stepLine s l = s ∧ extractLines (l :: rest) = extractLines rest := by
  refine ⟨stepLine_no_open s l hcur hq ha, ?_⟩
  unfold extractLines
  rw [List.foldl_cons, stepLine_no_open initState l rfl hq ha]

/-- Test for a run of two or more consecutive whitespace characters. -/
def hasWs2Run : List Char → Bool
  | c1 :: c2 :: rest => (pyIsSpace c1 && pyIsSpace c2) || hasWs2Run (c2 :: rest)
  | _ => false

/-- On input without a 2-whitespace run the split worker returns a single
fragment: a single space never splits. -/
theorem splitWs2Aux_no_run (cs acc : List Char) (h : hasWs2Run cs = false) :
    splitWs2Aux cs acc = [acc.reverse ++ cs] := by
  induction cs, acc using splitWs2Aux.induct with
  | case1 acc => simp [splitWs2Aux]
  | case2 c acc => simp [splitWs2Aux]
  | case3 c1 c2 rest acc hsp ih =>
    exfalso
    simp only [hasWs2Run, Bool.or_eq_false_iff] at h
    rw [h.1] at hsp
    exact Bool.false_ne_true hsp
  | case4 c1 c2 rest acc hsp ih =>
    simp only [hasWs2Run, Bool.or_eq_false_iff] at h
    rw [splitWs2Aux, if_neg (by simp [hsp]), ih h.2]
    simp

/-- The concatenation of the fragments is an order-preserving sublist of
the input: fragments appear left to right. -/
theorem splitWs2Aux_flatten_sublist (cs acc : List Char) :
    ((splitWs2Aux cs acc).flatten).Sublist (acc.reverse ++ cs) := by
  induction cs, acc using splitWs2Aux.induct with
  | case1 acc => simp [splitWs2Aux]
  | case2 c acc => simp [splitWs2Aux]
  | case3 c1 c2 rest acc hsp ih =>
    rw [splitWs2Aux, if_pos hsp]
    simp only [List.flatten_cons]
    refine List.Sublist.append_left ?_ acc.reverse
    simp only [List.reverse_nil, List.nil_append] at ih
    exact ih.trans (List.Sublist.cons c1 ((c2 :: rest).dropWhile_sublist pyIsSpace))
  | case4 c1 c2 rest acc hsp ih =>
    rw [splitWs2Aux, if_neg (by simp [hsp])]
    refine ih.trans ?_
    simp

/-- C3: a line recognized as a choice-start marker has its trimmed text
split on runs of two or more whitespace characters, and the fragments are
appended, in order, to the current choice accumulator; a string with no
2-whitespace run is never split, so a single space never splits. -/
theorem c3_choice_line_split :
    (∀ (s : ParseState) (l : String), matchAnswerOption (pyStrip l) = true →
      stepLine s l = { s with options := s.options ++ splitWs2 (pyStrip l) }) ∧
    (∀ cs : List Char, hasWs2Run cs = false → splitWs2Aux cs [] = [cs]) ∧
    (∀ cs : List Char, ((splitWs2Aux cs []).flatten).Sublist cs) := by
  refine ⟨stepLine_option, fun cs h => ?_, fun cs => ?_⟩
  · rw [splitWs2Aux_no_run cs [] h]
    simp
  · have h := splitWs2Aux_flatten_sublist cs []
    simpa using h

unseal splitWs2Aux in
theorem c3_choice_line_witness :
    stepLine ⟨[], none, ["ア z"]⟩ "ア a   イ b  ウ c" =
      ⟨[], none, ["ア z", "ア a", "イ b", "ウ c"]⟩ ∧
    splitWs2Aux "a b".data [] = ["a b".data] := by
  constructor
  · rw [c3_choice_line_split.1 ⟨[], none, ["ア z"]⟩ "ア a   イ b  ウ c" (by decide)]
    rfl
  · exact c3_choice_line_split.2.1 "a b".data (by decide)

theorem c4_premarker_line_witness :
    stepLine ⟨[], none, []⟩ "stray body line" = ⟨[], none, []⟩ ∧
    extractLines ["stray body line", "問1 x"] = extractLines ["問1 x"] :=
  c4_premarker_line_dropped ⟨[], none, []⟩ "stray body line" ["問1 x"]
    rfl (by decide) (by decide)

/-- C6: in the serialized output, every record's question_answer equals
the lookup of its question_number in the answer map (the empty string when
the map has no entry), and all other fields are copied unchanged. -/
theorem c6_answer_merge (questions : List TypedQuestion)
    (answers_dict : String → Option String) :
    (save_to_json questions answers_dict).length = questions.length ∧
    ∀ (i : Nat) (h1 : i < (save_to_json questions answers_dict).length)
      (h2 : i < questions.length),
      ((save_to_json questions answers_dict).get ⟨i, h1⟩).question_answer =
        (answers_dict (questions.get ⟨i, h2⟩).question_number).getD "" ∧
      ((save_to_json questions answers_dict).get ⟨i, h1⟩).question_number =
        (questions.get ⟨i, h2⟩).question_number ∧
      ((save_to_json questions answers_dict).get ⟨i, h1⟩).question_type =
        (questions.get ⟨i, h2⟩).question_type ∧
      ((save_to_json questions answers_dict).get ⟨i, h1⟩).question_text =
        (questions.get ⟨i, h2⟩).question_text ∧
      ((save_to_json questions answers_dict).get ⟨i, h1⟩).options =
        (questions.get ⟨i, h2⟩).options := by
  refine ⟨by simp [save_to_json], fun i h1 h2 => ?_⟩
  simp [save_to_json]

theorem c6_answer_merge_witness :
    ((save_to_json [⟨"1", "technology", "t", ["a"]⟩]
        (fun n => if n = "1" then some "ウ" else none)).get
      ⟨0, by simp [save_to_json]⟩).question_answer = "ウ" ∧
    ((save_to_json [⟨"2", "unknown", "u", []⟩]
        (fun n => if n = "1" then some "ウ" else none)).get
      ⟨0, by simp [save_to_json]⟩).question_answer = "" := by
  constructor
  · have h := (c6_answer_merge [⟨"1", "technology", "t", ["a"]⟩]
      (fun n => if n = "1" then some "ウ" else none)).2 0 (by simp [save_to_json]) (by simp)
    rw [h.1]
    rfl
  · have h := (c6_answer_merge [⟨"2", "unknown", "u", []⟩]
      (fun n => if n = "1" then some "ウ" else none)).2 0 (by simp [save_to_json]) (by simp)
    rw [h.1]
    rfl

unseal List.merge List.mergeSort in
/-- C7: the batch driver's sort yields a permutation of the collected
records that is sorted ascending by the integer value of question_number
(numeric, not lexical: "9" is placed before "10"). -/
theorem c7_sorted_numerically (qs : List TypedQuestion) :
    (sortQuestions qs).Perm qs ∧
    List.Sorted (fun a b => sortKey a ≤ sortKey b) (sortQuestions qs) ∧
    sortQuestions [⟨"10", "t", "a", []⟩, ⟨"9", "t", "b", []⟩] =
      [⟨"9", "t", "b", []⟩, ⟨"10", "t", "a", []⟩] := by
  refine ⟨List.mergeSort_perm qs _, ?_, rfl⟩
  have h := @List.sorted_mergeSort TypedQuestion
    (fun a b => decide (sortKey a ≤ sortKey b))
    (by intro a b c hab hbc
        simp only [decide_eq_true_eq] at *
        omega)
    (by intro a b
        simp only [Bool.or_eq_true, decide_eq_true_eq]
        omega) qs
  exact h.imp fun hab => of_decide_eq_true hab

/-- C8 is refuted at the stated boundary: save_to_json, the step that
serializes records to the output document, does not exclude a record whose
question_number has no integer parse. -/
theorem c8_counterexample_not_dropped_at_save :
    pyIntOfString "abc" = none ∧
    save_to_json [⟨"abc", "unknown", "t", []⟩] (fun _ => none) =
      [⟨"abc", "unknown", "t", [], ""⟩] :=
  ⟨rfl, rfl⟩

/-- C8 amended: records with unparseable numbers pass through the JSON
serialization unchanged and are dropped at the database-insertion
boundary instead: map_json_to_db_row maps an unparseable question_number
to a null id and insert_questions inserts exactly the mapped rows whose id
is non-null, in order. -/
theorem c8_dropped_at_db_insertion (questions_data : List FormattedQuestion) :
    insert_questions questions_data =
      ((questions_data.filter fun q =>
        (pyIntOfString q.question_number).isSome).map map_json_to_db_row) ∧
    (∀ r ∈ insert_questions questions_data, r.id.isSome = true) ∧
    ∀ q ∈ questions_data, pyIntOfString q.question_number = none →
      map_json_to_db_row q ∉ insert_questions questions_data := by
  refine ⟨List.filter_map map_json_to_db_row questions_data, ?_, ?_⟩
  · intro r hr
    exact (List.mem_filter.mp hr).2
  · intro q _ hnone hmem
    have h : (map_json_to_db_row q).id.isSome = true := (List.mem_filter.mp hmem).2
    rw [show (map_json_to_db_row q).id = pyIntOfString q.question_number from rfl,
      hnone] at h
    simp at h

theorem c8_dropped_witness :
    insert_questions [⟨"abc", "unknown", "t", [], ""⟩, ⟨"7", "technology", "u", [], "ア"⟩] =
      [⟨some 7, "u", "technology", [], "ア"⟩] ∧
    map_json_to_db_row ⟨"abc", "unknown", "t", [], ""⟩ ∉
      insert_questions [⟨"abc", "unknown", "t", [], ""⟩, ⟨"7", "technology", "u", [], "ア"⟩] := by
  constructor
  · rw [(c8_dropped_at_db_insertion
      [⟨"abc", "unknown", "t", [], ""⟩, ⟨"7", "technology", "u", [], "ア"⟩]).1]
    rfl
  · exact (c8_dropped_at_db_insertion
      [⟨"abc", "unknown", "t", [], ""⟩, ⟨"7", "technology", "u", [], "ア"⟩]).2.2
      ⟨"abc", "unknown", "t", [], ""⟩ (by simp) rfl

/-! Lemmas about stripped strings, used for the error-handling claims. -/

/-- The first element surviving `dropWhile p` falsifies `p`. -/
theorem dropWhile_head?_not (p : Char → Bool) (l : List Char) (c : Char)
    (h : (l.dropWhile p).head? = some c) : p c = false := by
  induction l with
  | nil => simp at h
  | cons a t ih =>
    rw [List.dropWhile_cons] at h
    by_cases hp : p a = true
    · rw [if_pos hp] at h
      exact ih h
    · rw [if_neg hp] at h
      simp only [List.head?_cons, Option.some.injEq] at h
      rw [← h]
      exact Bool.not_eq_true _ |>.mp hp

/-- A stripped string does not end in whitespace: the head of its reverse
is a non-whitespace character. -/
theorem pyStripL_no_trailing (cs : List Char) (c : Char)
    (h : ((pyStripL cs).reverse).head? = some c) : pyIsSpace c = false := by
  unfold pyStripL at h
  rw [List.reverse_reverse] at h
  exact dropWhile_head?_not pyIsSpace _ c h

/-- Inversion of a successful question-start match: the line is `問`, the
non-empty digit group, one whitespace character, then the trailing text. -/
theorem matchQuestionStartL_inv (cs nd tl : List Char)
    (h : matchQuestionStartL cs = some (nd, tl)) :
    ∃ w, cs = '問' :: (nd ++ w :: tl) ∧ pyIsSpace w = true ∧ nd ≠ [] ∧
      nd.all Char.isDigit = true := by
  cases cs with
  | nil => simp [matchQuestionStartL] at h
  | cons c rest =>
    simp only [matchQuestionStartL] at h
    by_cases hc : c = '問'
    · rw [if_pos hc] at h
      subst hc
      cases htk : rest.takeWhile Char.isDigit with
      | nil => rw [htk] at h; simp at h
      | cons d ds =>
        cases hdw : rest.dropWhile Char.isDigit with
        | nil => rw [htk, hdw] at h; simp at h
        | cons w tail =>
          rw [htk, hdw] at h
          have h : (if pyIsSpace w = true then some (d :: ds, tail) else none) =
              some (nd, tl) := h
          by_cases hw : pyIsSpace w = true
          · rw [if_pos hw] at h
            simp only [Option.some.injEq, Prod.mk.injEq] at h
            refine ⟨w, ?_, hw, ?_, ?_⟩
            · rw [← h.1, ← h.2, ← htk, ← hdw, List.takeWhile_append_dropWhile]
            · rw [← h.1]; simp
            · rw [← h.1, List.all_eq_true]
              intro x hx
              rw [← htk] at hx
              exact List.mem_takeWhile_imp hx
          · rw [if_neg hw] at h
            simp at h
    · rw [if_neg hc] at h
      simp at h

/-- On a stripped line, a recognized marker's trailing text still contains
a non-whitespace character (the last character of the line). -/
theorem marker_trailing_has_content (cs nd tl : List Char)
    (h : matchQuestionStartL (pyStripL cs) = some (nd, tl)) :
    ∃ y ∈ tl, pyIsSpace y = false := by
  obtain ⟨w, heq, hw, _, _⟩ := matchQuestionStartL_inv _ _ _ h
  cases htl : tl.reverse with
  | nil =>
    exfalso
    have htl' : tl = [] := List.reverse_eq_nil_iff.mp htl
    have h3 : pyIsSpace w = false := by
      apply pyStripL_no_trailing cs
      rw [heq, htl']
      simp
    rw [hw] at h3
    exact absurd h3 (by decide)
  | cons y ys =>
    refine ⟨y, List.mem_reverse.mp (htl ▸ List.mem_cons_self y ys), ?_⟩
    apply pyStripL_no_trailing cs
    rw [heq]
    simp only [List.reverse_cons, List.reverse_append, List.reverse_cons, htl]
    simp

/-- Stripping a list that contains a non-whitespace element cannot give
the empty list. -/
theorem pyStripL_ne_nil (tl : List Char) (x : Char) (hx : x ∈ tl)
    (hp : pyIsSpace x = false) : pyStripL tl ≠ [] := by
  intro h
  unfold pyStripL at h
  rw [List.reverse_eq_nil_iff, List.dropWhile_eq_nil_iff] at h
  cases hdp : List.dropWhile pyIsSpace tl with
  | nil =>
    rw [List.dropWhile_eq_nil_iff] at hdp
    rw [hdp x hx] at hp
    exact absurd hp (by decide)
  | cons d ds =>
    have hd : pyIsSpace d = false := by
      apply dropWhile_head?_not pyIsSpace tl
      rw [hdp]
      rfl
    have hd' : pyIsSpace d = true := by
      apply h
      rw [hdp]
      simp
    rw [hd] at hd'
    exact absurd hd' (by decide)

/-- C5 is refuted as stated: the raw line `"問1 "` matches the
question-start pattern with an empty captured trailing text, yet the
parser yields no record at all for this input (each line is stripped
before classification, after which the pattern no longer matches), rather
than a record whose text is the empty string. -/
theorem c5_counterexample_empty_trailing :
    matchQuestionStart "問1 " = some ("1", "") ∧
    extract_questions_from_text "問1 " = [] :=
  ⟨rfl, rfl⟩

/-- C5 amended: the parser is a total function that degrades gracefully:
an input with zero recognized markers yields the empty sequence, and a
recognized marker line always opens a record whose text is the trimmed
captured trailing text — which is never empty, because lines are stripped
before classification, so a marker whose trailing text trims to nothing is
simply not recognized and yields no record. -/
theorem c5_graceful_degradation (text_content : String) (cs nd tl : List Char) :
    (countMarkers (pySplitLines (pyStrip text_content)) = 0 →
      extract_questions_from_text text_content = []) ∧
    (matchQuestionStartL (pyStripL cs) = some (nd, tl) → pyStripL tl ≠ []) ∧
    (∀ (s : ParseState) (l num trail : String),
      matchQuestionStart (pyStrip l) = some (num, trail) →
      (stepLine s l).current_question = some ⟨num, pyStrip trail⟩) := by
  refine ⟨?_, ?_, ?_⟩
  · intro h0
    exact List.length_eq_zero.mp ((extract_length_eq text_content).trans h0)
  · intro h
    obtain ⟨y, hy, hys⟩ := marker_trailing_has_content cs nd tl h
    exact pyStripL_ne_nil tl y hy hys
  · intro s l num trail h
    rw [stepLine_marker s l num trail h]

theorem c5_graceful_witness :
    extract_questions_from_text "plain text only" = [] ∧
    pyStripL "z".data ≠ [] ∧
    (stepLine ⟨[], none, []⟩ "問9 z").current_question = some ⟨"9", "z"⟩ :=
  ⟨(c5_graceful_degradation "plain text only" [] [] []).1 (by decide),
   (c5_graceful_degradation "" " 問9 z ".data "9".data "z".data).2.1 (by decide),
   (c5_graceful_degradation "" [] [] []).2.2 ⟨[], none, []⟩ "問9 z" "9" "z" (by decide)⟩

/-! Lemmas for the pre-marker option accumulation claim. -/

/-- Folding option-only lines accumulates their fragments in order while
keeping the output and the (absent) open question unchanged. -/
theorem foldl_option_lines (pres : List String) (p : List Question)
    (opts : List String) (hpre : ∀ l ∈ pres, matchAnswerOption (pyStrip l) = true) :
    pres.foldl stepLine ⟨p, none, opts⟩ =
      ⟨p, none, opts ++ pres.flatMap fun l => splitWs2 (pyStrip l)⟩ := by
  induction pres generalizing opts with
  | nil => simp
  | cons l ls ih =>
    rw [List.foldl_cons, stepLine_option _ _ (hpre l (List.mem_cons_self l ls))]
    have := ih (opts ++ splitWs2 (pyStrip l))
      (fun x hx => hpre x (List.mem_cons_of_mem l hx))
    simp only [List.flatMap_cons, ← List.append_assoc]
    exact this

/-- The step function only ever appends to the output list. -/
theorem stepLine_parsed_extends (s : ParseState) (l : String) :
    ∃ t2, (stepLine s l).parsed_data = s.parsed_data ++ t2 := by
  cases hq : matchQuestionStart (pyStrip l) with
  | some pr =>
    obtain ⟨num, trail⟩ := pr
    rw [stepLine_marker s l num trail hq]
    cases hc : s.current_question with
    | some q =>
      exact ⟨[⟨q.question_number, q.question_text, s.options⟩], by simp [sealCurrent, hc]⟩
    | none => exact ⟨[], by simp [sealCurrent, hc]⟩
  | none =>
    by_cases ha : matchAnswerOption (pyStrip l) = true
    · rw [stepLine_option s l ha]
      exact ⟨[], by simp⟩
    · simp only [Bool.not_eq_true] at ha
      cases hc : s.current_question with
      | none =>
        rw [stepLine_no_open s l hc hq ha]
        exact ⟨[], by simp⟩
      | some q =>
        refine ⟨[], ?_⟩
        by_cases he : pyStrip l = ""
        · rw [stepLine_body_empty s l q hq ha hc he]
          simp
        · rw [stepLine_body s l q hq ha hc he]
          simp

/-- The pre-marker fragments stay at the head of the first question's
options: either nothing is sealed yet, a question is open and the
accumulator extends `pre`, or the first sealed record's options extend
`pre`. -/
def optionsCarried (pre : List String) (s : ParseState) : Prop :=
  (s.parsed_data = [] ∧ s.current_question.isSome = true ∧
    ∃ ext, s.options = pre ++ ext) ∨
  (∃ q rest, s.parsed_data = q :: rest ∧ ∃ ext, q.options = pre ++ ext)

theorem optionsCarried_step (pre : List String) (s : ParseState) (l : String)
    (h : optionsCarried pre s) : optionsCarried pre (stepLine s l) := by
  rcases h with ⟨hp, hsome, ext, hopts⟩ | ⟨q, qrest, hp, ext, hopts⟩
  · obtain ⟨q0, hq0⟩ := Option.isSome_iff_exists.mp hsome
    cases hq : matchQuestionStart (pyStrip l) with
    | some pr =>
      obtain ⟨num, trail⟩ := pr
      rw [stepLine_marker s l num trail hq]
      right
      refine ⟨⟨q0.question_number, q0.question_text, s.options⟩, [], ?_, ext, hopts⟩
      simp [sealCurrent, hq0, hp]
    | none =>
      by_cases ha : matchAnswerOption (pyStrip l) = true
      · rw [stepLine_option s l ha]
        left
        exact ⟨hp, by simp [hq0], ext ++ splitWs2 (pyStrip l),
          by simp [hopts, List.append_assoc]⟩
      · simp only [Bool.not_eq_true] at ha
        by_cases he : pyStrip l = ""
        · rw [stepLine_body_empty s l q0 hq ha hq0 he]
          left
          exact ⟨hp, hsome, ext, hopts⟩
        · rw [stepLine_body s l q0 hq ha hq0 he]
          left
          exact ⟨hp, by simp, ext, hopts⟩
  · obtain ⟨t2, ht2⟩ := stepLine_parsed_extends s l
    right
    exact ⟨q, qrest ++ t2, by rw [ht2, hp, List.cons_append], ext, hopts⟩

theorem optionsCarried_foldl (pre : List String) (lines : List String) (s : ParseState)
    (h : optionsCarried pre s) : optionsCarried pre (lines.foldl stepLine s) := by
  induction lines generalizing s with
  | nil => exact h
  | cons l ls ih => exact ih _ (optionsCarried_step pre s l h)

theorem optionsCarried_finalize (pre : List String) (s : ParseState)
    (h : optionsCarried pre s) :
    ∃ q qs, finalize s = q :: qs ∧ ∃ ext, q.options = pre ++ ext := by
  rcases h with ⟨hp, hsome, ext, hopts⟩ | ⟨q, qrest, hp, ext, hopts⟩
  · obtain ⟨q0, hq0⟩ := Option.isSome_iff_exists.mp hsome
    refine ⟨⟨q0.question_number, q0.question_text, s.options⟩, [], ?_, ext, hopts⟩
    simp [finalize, sealCurrent, hq0, hp]
  · cases hc : s.current_question with
    | none =>
      exact ⟨q, qrest, by simp [finalize, sealCurrent, hc, hp], ext, hopts⟩
    | some q0 =>
      exact ⟨q, qrest ++ [⟨q0.question_number, q0.question_text, s.options⟩],
        by simp [finalize, sealCurrent, hc, hp], ext, hopts⟩

/-- C9: choice-start lines appearing before the first question-start
marker are not discarded: their fragments accumulate in the choice list
(which is not reset when the first question opens) and are attached as the
leading options of the first question sealed afterwards. -/
theorem c9_premarker_options_attach (pres : List String) (m : String)
    (rest : List String) (num trail : String)
    (hpre : ∀ l ∈ pres, matchAnswerOption (pyStrip l) = true)
    (hm : matchQuestionStart (pyStrip m) = some (num, trail)) :
    ∃ q qs, extractLines (pres ++ m :: rest) = q :: qs ∧
      ∃ ext, q.options = (pres.flatMap fun l => splitWs2 (pyStrip l)) ++ ext := by
  unfold extractLines
  rw [List.foldl_append, List.foldl_cons,
    show initState = (⟨[], none, []⟩ : ParseState) from rfl,
    foldl_option_lines pres [] [] hpre, stepLine_marker _ m num trail hm]
  apply optionsCarried_finalize
  apply optionsCarried_foldl
  left
  refine ⟨?_, ?_, [], ?_⟩ <;> simp [sealCurrent]

unseal splitWs2Aux in
theorem c9_premarker_options_witness :
    ∃ q qs, extractLines (["ア p   イ q"] ++ "問3 body" :: ["more"]) = q :: qs ∧
      ∃ ext, q.options =
        (["ア p   イ q"].flatMap fun l => splitWs2 (pyStrip l)) ++ ext :=
  c9_premarker_options_attach ["ア p   イ q"] "問3 body" ["more"] "3" "body"
    (by
      intro l hl
      simp only [List.mem_singleton] at hl
      subst hl
      decide)
    (by decide)

/-! Lemmas for the well-formed-number invariant. -/

/-- The digit group captured by a recognized marker is a non-empty digit
string. -/
theorem marker_num_digits (l num trail : String)
    (h : matchQuestionStart l = some (num, trail)) :
    num.data ≠ [] ∧ num.data.all Char.isDigit = true := by
  unfold matchQuestionStart at h
  rw [Option.map_eq_some'] at h
  obtain ⟨⟨nd, tl⟩, hL, hf⟩ := h
  obtain ⟨w, _, _, hne, hall⟩ := matchQuestionStartL_inv _ _ _ hL
  simp only [Prod.mk.injEq] at hf
  rw [← hf.1]
  exact ⟨hne, hall⟩

/-- Digits are not whitespace. -/
theorem digit_not_space (c : Char) (hd : Char.isDigit c = true) :
    pyIsSpace c = false := by
  by_contra hcon
  rw [Bool.not_eq_false] at hcon
  simp only [pyIsSpace, Bool.or_eq_true, decide_eq_true_eq] at hcon
  rcases hcon with ((((((h | h) | h) | h) | h) | h) | h) | h <;>
    rw [h] at hd <;> exact absurd hd (by decide)

/-- `dropWhile` is the identity when no element satisfies the predicate. -/
theorem dropWhile_eq_self_of_all (p : Char → Bool) (l : List Char)
    (h : ∀ c ∈ l, p c = false) : l.dropWhile p = l := by
  cases l with
  | nil => rfl
  | cons a t =>
    rw [List.dropWhile_cons, if_neg (by simp [h a (List.mem_cons_self a t)])]

/-- Stripping a whitespace-free string is the identity. -/
theorem pyStripL_all_not (cs : List Char) (h : ∀ c ∈ cs, pyIsSpace c = false) :
    pyStripL cs = cs := by
  unfold pyStripL
  rw [dropWhile_eq_self_of_all pyIsSpace cs h,
    dropWhile_eq_self_of_all pyIsSpace cs.reverse
      (fun c hc => h c (List.mem_reverse.mp hc)),
    List.reverse_reverse]

/-- Python `int` succeeds on every non-empty digit string. -/
theorem pyIntOfString_digits (s : String) (hne : s.data ≠ [])
    (hall : s.data.all Char.isDigit = true) :
    pyIntOfString s = some (digitsToNat s.data) := by
  have hnospace : ∀ c ∈ s.data, pyIsSpace c = false := fun c hc =>
    digit_not_space c (List.all_eq_true.mp hall c hc)
  unfold pyIntOfString
  rw [pyStripL_all_not _ hnospace]
  cases hd : s.data with
  | nil => exact absurd hd hne
  | cons c cr =>
    have hall' : (c :: cr).all Char.isDigit = true := hd ▸ hall
    have hcd : Char.isDigit c = true :=
      List.all_eq_true.mp hall' c (List.mem_cons_self _ _)
    have h1 : ¬ c = '-' := fun hch => by
      rw [hch] at hcd
      exact absurd hcd (by decide)
    have h2 : ¬ c = '+' := fun hch => by
      rw [hch] at hcd
      exact absurd hcd (by decide)
    simp [h1, h2, hall']

/-- Invariant: every sealed and open question number is a non-empty digit
string. -/
def numbersOk (s : ParseState) : Prop :=
  (∀ q ∈ s.parsed_data,
    q.question_number.data ≠ [] ∧ q.question_number.data.all Char.isDigit = true) ∧
  (∀ q, s.current_question = some q →
    q.question_number.data ≠ [] ∧ q.question_number.data.all Char.isDigit = true)

theorem numbersOk_step (s : ParseState) (l : String) (h : numbersOk s) :
    numbersOk (stepLine s l) := by
  obtain ⟨h1, h2⟩ := h
  cases hq : matchQuestionStart (pyStrip l) with
  | some pr =>
    obtain ⟨num, trail⟩ := pr
    rw [stepLine_marker s l num trail hq]
    constructor
    · intro q hqmem
      cases hc : s.current_question with
      | none =>
        simp only [sealCurrent, hc] at hqmem
        exact h1 q hqmem
      | some q0 =>
        simp only [sealCurrent, hc] at hqmem
        rcases List.mem_append.mp hqmem with hm | hm
        · exact h1 q hm
        · simp only [List.mem_singleton] at hm
          rw [hm]
          exact h2 q0 hc
    · intro q hqc
      simp only [Option.some.injEq] at hqc
      rw [← hqc]
      exact marker_num_digits (pyStrip l) num trail hq
  | none =>
    by_cases ha : matchAnswerOption (pyStrip l) = true
    · rw [stepLine_option s l ha]
      exact ⟨h1, h2⟩
    · simp only [Bool.not_eq_true] at ha
      cases hc : s.current_question with
      | none =>
        rw [stepLine_no_open s l hc hq ha]
        exact ⟨h1, h2⟩
      | some q0 =>
        by_cases he : pyStrip l = ""
        · rw [stepLine_body_empty s l q0 hq ha hc he]
          exact ⟨h1, h2⟩
        · rw [stepLine_body s l q0 hq ha hc he]
          refine ⟨h1, ?_⟩
          intro q hqc
          simp only [Option.some.injEq] at hqc
          rw [← hqc]
          exact h2 q0 hc

theorem numbersOk_foldl (lines : List String) (s : ParseState) (h : numbersOk s) :
    numbersOk (lines.foldl stepLine s) := by
  induction lines generalizing s with
  | nil => exact h
  | cons l ls ih => exact ih _ (numbersOk_step s l h)

theorem numbersOk_finalize (s : ParseState) (h : numbersOk s) :
    ∀ q ∈ finalize s,
      q.question_number.data ≠ [] ∧ q.question_number.data.all Char.isDigit = true := by
  intro q hq
  unfold finalize at hq
  cases hc : s.current_question with
  | none =>
    simp only [sealCurrent, hc] at hq
    exact h.1 q hq
  | some q0 =>
    simp only [sealCurrent, hc] at hq
    rcases List.mem_append.mp hq with hm | hm
    · exact h.1 q hm
    · simp only [List.mem_singleton] at hm
      rw [hm]
      exact h.2 q0 hc

/-- C10: every record emitted by the parser carries a non-empty decimal
digit string as its question number, so the numeric conversion used by the
batch driver's sort key succeeds on every parser-produced record. -/
theorem c10_parser_numbers_numeric (text_content : String) (q : Question)
    (hq : q ∈ extract_questions_from_text text_content) :
    q.question_number ≠ "" ∧ q.question_number.data.all Char.isDigit = true ∧
    pyIntOfString q.question_number = some (digitsToNat q.question_number.data) := by
  unfold extract_questions_from_text extractLines at hq
  have hok : numbersOk ((pySplitLines (pyStrip text_content)).foldl stepLine initState) := by
    apply numbersOk_foldl
    constructor
    · intro q hq
      exact absurd hq (List.not_mem_nil q)
    · intro q hqc
      exact Option.noConfusion hqc
  have hg := numbersOk_finalize _ hok q hq
  refine ⟨?_, hg.2, pyIntOfString_digits _ hg.1 hg.2⟩
  intro h0
  apply hg.1
  rw [h0]

theorem c10_parser_numbers_witness :
    ("1" : String) ≠ "" ∧ "1".data.all Char.isDigit = true ∧
    pyIntOfString "1" = some (digitsToNat "1".data) :=
  c10_parser_numbers_numeric "問1 x" ⟨"1", "x", []⟩ (by decide)

end ItPassport
